import Mathlib

/-!
Verification development for the spo-rag repository.

The shallow embedding below models the Index Lifecycle Manager of the
repository: the VectorStore class (shared/vector-store.ts), the crawler
main loop, the Indexer chunking path, the query route, the crawler
trigger route and the IndexWatcher. Filesystem directories that can be
moved atomically by rename are modelled as optional slot contents of a
record; machine-level details (timers, process ids) are abstracted but
every branch of the translated functions mirrors a branch of the source.
-/

namespace SpoRag

/-- Contents of the stats.json sidecar, from shared/types.ts IndexStats.
Timestamps are abstracted to Nat. -/
structure IndexStats where
  totalDocuments : Nat
  totalChunks : Nat
  lastUpdated : Nat
  indexSize : Nat
deriving DecidableEq

/-- State of the stats.json sidecar inside an index directory: absent,
present but unparseable, or present with parseable stats. -/
inductive Sidecar where
  | missing : Sidecar
  | corrupt : Sidecar
  | good : IndexStats → Sidecar
deriving DecidableEq

/-- Contents of one on-disk index directory. A generation is identified
by a Nat. complete means all index artifacts (faiss.index,
docstore.json) and possibly a sidecar are present; incomplete is a
mid-write directory, where the Bool records whether docstore.json has
been written yet; empty is a directory holding no index artifacts at
all (at most the .lock token), as produced by the mkdir inside
acquireLock. -/
inductive DirContent where
  | complete : Nat → Sidecar → DirContent
  | incomplete : Nat → Bool → DirContent
  | empty : DirContent
deriving DecidableEq

/-- The filesystem slots touched by VectorStore: the production index
path, the sibling backup path, the sibling tmp path, and the .lock
sentinel file inside the production directory tree. Each rename moves a
whole slot content at once, which models the atomicity of
fs.rename on directories. -/
structure Fs where
  prod : Option DirContent
  backup : Option DirContent
  temp : Option DirContent
  lock : Bool
deriving DecidableEq

/-- Error taxonomy of the VectorStore paths, naming the throw sites of
shared/vector-store.ts: lockAcquisitionTimeout is the throw after the
retry loop (Failed to acquire lock after maximum retries),
indexNotFound is the throw when existsSync(indexPath) is false (Index
not found at ...), vectorStoreNotLoaded is the throw of getVectorStore
(Vector store not loaded), ioError stands for any other I/O failure
propagated from fs or FaissStore calls. -/
inductive VSError where
  | lockAcquisitionTimeout : VSError
  | indexNotFound : VSError
  | vectorStoreNotLoaded : VSError
  | ioError : VSError
deriving DecidableEq

/-- In-memory fields of the VectorStore instance: this.vectorStore and
this.stats. A loaded FaissStore is represented by its generation id. -/
structure VSMem where
  vectorStore : Option Nat
  stats : Option IndexStats
deriving DecidableEq

/-- Observable actions performed by save and load, for stating which
side effects an execution performed. -/
inductive Action where
  | acquireLock : Action
  | releaseLock : Action
  | writeTemp : Action
  | writeStats : Action
  | rmBackup : Action
  | renameProdToBackup : Action
  | renameTempToProd : Action
  | emitIndexUpdated : Action
  | readIndex : Action
deriving DecidableEq

/-- One exclusive-create attempt on the lock token, modelling
fs.writeFile(lockFilePath, pid, flag wx): returns (success, token
exists afterwards). If the token already exists the attempt fails and
the token is left untouched; otherwise it is created. -/
def tryCreateLock (lockExists : Bool) : Bool × Bool :=
  if lockExists then (false, true) else (true, true)

/-- Retry loop of acquireLock (vector-store.ts lines 216-241). held i
tells whether the lock token exists at attempt i; fuel is the number of
attempts still allowed (maxRetries - retries). Returns the index of the
successful attempt, or lockAcquisitionTimeout after exhausting fuel. -/
def acquireLockAux (held : Nat → Bool) (attempt : Nat) : Nat → Except VSError Nat
  | 0 => .error .lockAcquisitionTimeout
  | fuel + 1 =>
    if (tryCreateLock (held attempt)).1 then .ok attempt
    else acquireLockAux held (attempt + 1) fuel

/-- acquireLock(maxRetries = 30, retryDelay = 1000): up to maxRetries
exclusive-create attempts starting at attempt 0. The fixed delay
between attempts is not modelled (it does not affect the result). -/
def acquireLock (held : Nat → Bool) (maxRetries : Nat) : Except VSError Nat :=
  acquireLockAux held 0 maxRetries

/-- fs.mkdir(path.dirname(lockFilePath), recursive) at the start of
every acquireLock attempt (vector-store.ts line 222). Since the lock
token is indexPath/.lock, the dirname is the production index path
itself, so this call creates the production directory as an empty
directory whenever it is absent. A present token entails a present
production directory (the token lives inside it), so when the token
exists the call is necessarily a no-op, which the second disjunct of
the guard records. -/
def stepMkdirProd (fs : Fs) : Fs :=
  if fs.prod.isSome || fs.lock then fs else { fs with prod := some .empty }

/-- Effect of a successful lock creation on the filesystem. -/
def stepAcquireLock (fs : Fs) : Fs := { fs with lock := true }

/-- releaseLock (lines 243-252): unlink the token if it exists; never
throws. -/
def stepReleaseLock (fs : Fs) : Fs := { fs with lock := false }

/-- First part of vectorStore.save(tempPath): faiss.index written into
the tmp directory, docstore.json not yet present. -/
def stepWriteIndex (g : Nat) (fs : Fs) : Fs :=
  { fs with temp := some (.incomplete g false) }

/-- Second part of vectorStore.save(tempPath): docstore.json written
into the tmp directory; the stats sidecar is still absent. -/
def stepWriteDocstore (g : Nat) (fs : Fs) : Fs :=
  { fs with temp := some (.incomplete g true) }

/-- fs.writeFile(tempPath/stats.json, ...): the tmp directory now holds
the complete new generation together with its sidecar. -/
def stepWriteStats (g : Nat) (stats : IndexStats) (fs : Fs) : Fs :=
  { fs with temp := some (.complete g (.good stats)) }

/-- fs.rm(backupPath, recursive, force), executed only when the
production path exists and a backup exists (lines 156-160). -/
def stepRmBackup (fs : Fs) : Fs :=
  if fs.prod.isSome && fs.backup.isSome then { fs with backup := none } else fs

/-- fs.rename(indexPath, backupPath), executed only when the production
path exists (line 161): one atomic directory move. -/
def stepRenameProdToBackup (fs : Fs) : Fs :=
  if fs.prod.isSome then { fs with backup := fs.prod, prod := none } else fs

/-- fs.rename(tempPath, indexPath) (line 165): one atomic directory
move of the tmp directory into the production path. -/
def stepRenameTempToProd (fs : Fs) : Fs :=
  { fs with prod := fs.temp, temp := none }

/-- The body of save between acquireLock and releaseLock, in source
order (lines 139-165), each step paired with its observable action. -/
def saveActs (g : Nat) (stats : IndexStats) : List (Action × (Fs → Fs)) :=
  [(.writeTemp, stepWriteIndex g),
   (.writeTemp, stepWriteDocstore g),
   (.writeStats, stepWriteStats g stats),
   (.rmBackup, stepRmBackup),
   (.renameProdToBackup, stepRenameProdToBackup),
   (.renameTempToProd, stepRenameTempToProd)]

/-- Every filesystem state reached during a failure-free save, from the
initial state through the mkdir inside acquireLock and each step to the
final unlock. (The fs.mkdir at line 146 creates only the parent of the
index path and touches none of the modelled slots.) -/
def saveStates (g : Nat) (stats : IndexStats) (fs0 : Fs) : List Fs :=
  List.scanl (fun fs f => f fs) fs0
    (stepMkdirProd :: stepAcquireLock ::
      (saveActs g stats).map Prod.snd ++ [stepReleaseLock])

/-- Run a list of steps, optionally failing (throwing) just before the
step with the given index; a failing step performs no mutation. Returns
whether all steps completed, the resulting filesystem, and the actions
performed. -/
def runSteps : List (Action × (Fs → Fs)) → Option Nat → Fs → List Action →
    Bool × Fs × List Action
  | [], _, fs, tr => (true, fs, tr)
  | _ :: _, some 0, fs, tr => (false, fs, tr)
  | (a, f) :: rest, some (n + 1), fs, tr => runSteps rest (some n) (f fs) (tr ++ [a])
  | (a, f) :: rest, none, fs, tr => runSteps rest none (f fs) (tr ++ [a])

/-- save(vectorStore, stats) (lines 135-181): acquire the lock (whose
mkdir first creates the production directory when absent), write the
new generation to the tmp path, write the sidecar, swap via renames,
update the in-memory fields, release the lock and emit indexUpdated.
On any error, the catch block releases the lock and rethrows, leaving
the in-memory fields untouched. failAt injects an I/O failure before
the step with that index (none on the happy path). The lock token is
modelled as held by another process for the whole retry window when
fs0.lock is true. -/
def saveRun (g : Nat) (stats : IndexStats) (failAt : Option Nat) (fs0 : Fs)
    (mem : VSMem) : Except VSError Unit × Fs × VSMem × List Action :=
  match acquireLock (fun _ => fs0.lock) 30 with
  | .error e => (.error e, stepReleaseLock (stepMkdirProd fs0), mem, [.releaseLock])
  | .ok _ =>
    match runSteps (saveActs g stats) failAt (stepAcquireLock (stepMkdirProd fs0))
        [.acquireLock] with
    | (true, fs2, tr) =>
        (.ok (), stepReleaseLock fs2, ⟨some g, some stats⟩,
          tr ++ [.releaseLock, .emitIndexUpdated])
    | (false, fs2, tr) =>
        (.error .ioError, stepReleaseLock fs2, mem, tr ++ [.releaseLock])

/-- loadStats (lines 203-214): if stats.json exists, read and parse it
into this.stats; a parse or read failure is caught and sets this.stats
to null; when the file does not exist nothing runs, so this.stats keeps
its previous value. -/
def loadStats (d : DirContent) (mem : VSMem) : VSMem :=
  match d with
  | .complete _ .missing => mem
  | .complete _ .corrupt => { mem with stats := none }
  | .complete _ (.good s) => { mem with stats := some s }
  | .incomplete _ _ => mem
  | .empty => mem

instance {ε α : Type} [DecidableEq ε] [DecidableEq α] : DecidableEq (Except ε α) := fun
  | .ok a, .ok b =>
      if h : a = b then .isTrue (by rw [h])
      else .isFalse (by intro hh; cases hh; exact h rfl)
  | .ok _, .error _ => .isFalse (by intro h; cases h)
  | .error _, .ok _ => .isFalse (by intro h; cases h)
  | .error e, .error f =>
      if h : e = f then .isTrue (by rw [h])
      else .isFalse (by intro hh; cases hh; exact h rfl)

/-- Result of one load() execution: the returned value or error, the
final in-memory fields, the final filesystem, and the actions
performed. -/
structure LoadResult where
  result : Except VSError Nat
  mem : VSMem
  fs : Fs
  trace : List Action
deriving DecidableEq

/-- load() (lines 108-133): acquire the lock (whose mkdir creates the
production directory when absent), then check existsSync(indexPath) and
throw Index-not-found when it fails - a branch the mkdir makes
unreachable, kept here because the source keeps it at lines 112-114 -
otherwise read the generation (failing with a generic I/O error when
the directory is empty or incomplete, since FaissStore.load finds no
readable artifacts), read the sidecar via loadStats, release the lock.
The catch block releases the lock and rethrows. -/
def load (fs : Fs) (mem : VSMem) : LoadResult :=
  match acquireLock (fun _ => fs.lock) 30 with
  | .error e => ⟨.error e, mem, stepReleaseLock (stepMkdirProd fs), [.releaseLock]⟩
  | .ok _ =>
    match (stepMkdirProd fs).prod with
    | none =>
        ⟨.error .indexNotFound, mem, stepReleaseLock (stepAcquireLock (stepMkdirProd fs)),
          [.acquireLock, .releaseLock]⟩
    | some .empty =>
        ⟨.error .ioError, mem, stepReleaseLock (stepAcquireLock (stepMkdirProd fs)),
          [.acquireLock, .readIndex, .releaseLock]⟩
    | some (.incomplete _ _) =>
        ⟨.error .ioError, mem, stepReleaseLock (stepAcquireLock (stepMkdirProd fs)),
          [.acquireLock, .readIndex, .releaseLock]⟩
    | some (.complete g sc) =>
        ⟨.ok g, loadStats (.complete g sc) { mem with vectorStore := some g },
          stepReleaseLock (stepAcquireLock (stepMkdirProd fs)),
          [.acquireLock, .readIndex, .releaseLock]⟩

/-- getVectorStore (lines 183-188): throw Vector store not loaded when
this.vectorStore is null, otherwise return it. -/
def getVectorStore (mem : VSMem) : Except VSError Nat :=
  match mem.vectorStore with
  | none => .error .vectorStoreNotLoaded
  | some g => .ok g

/-- Whether a directory contains docstore.json. -/
def hasDocstore : DirContent → Bool
  | .complete _ _ => true
  | .incomplete _ hd => hd
  | .empty => false

/-- indexExists (lines 194-201): existsSync(indexPath) and
existsSync(indexPath/docstore.json). -/
def indexExists (fs : Fs) : Bool :=
  match fs.prod with
  | none => false
  | some d => hasDocstore d

/-- Whether an Except value is a success. -/
def exceptOk {ε α : Type} : Except ε α → Bool
  | .ok _ => true
  | .error _ => false

/-! ## Crawler main loop (crawler/index.ts, src/unnamed/part_003) -/

/-- Accumulated outcome of the per-document loop of the crawler main
function: processedDocuments, the recorded errors (document paired with
its error value), documentsProcessed and documentsSkipped. -/
structure CrawlOutcome (α β ε : Type) where
  processed : List β
  errors : List (α × ε)
  documentsProcessed : Nat
  documentsSkipped : Nat

/-- The for loop of main (lines 31-59): each document is downloaded and
processed; on success it is pushed onto processedDocuments and
documentsProcessed incremented; on failure documentsSkipped is
incremented, an error is recorded, and the loop continues with the next
document. proc is the combined download-and-process step for one
document. -/
def processLoop {α β ε : Type} (proc : α → Except ε β) :
    List α → CrawlOutcome α β ε
  | [] => ⟨[], [], 0, 0⟩
  | d :: rest =>
    let r := processLoop proc rest
    match proc d with
    | .ok pd =>
        ⟨pd :: r.processed, r.errors, r.documentsProcessed + 1, r.documentsSkipped⟩
    | .error e =>
        ⟨r.processed, (d, e) :: r.errors, r.documentsProcessed, r.documentsSkipped + 1⟩

/-- Indexer.createIndex (indexer.ts lines 26-62): every processed
document is chunked and all chunks are appended, in document order,
into the list backing the new generation. ch is the chunker applied to
one document. -/
def createIndex {β γ : Type} (ch : β → List γ) (docs : List β) : List γ :=
  (docs.map ch).flatten

/-- Stats computed by main (lines 66-77): totalDocuments is
documentsProcessed, totalChunks sums the chunk counts of the processed
documents. -/
def crawlStats {α β γ ε : Type} (ch : β → List γ) (r : CrawlOutcome α β ε) :
    IndexStats :=
  ⟨r.documentsProcessed, (r.processed.map fun d => (ch d).length).sum, 0, 0⟩

/-! ## Chunker (Indexer.chunkDocument, indexer.ts lines 64-90)

The repository delegates text splitting to RecursiveCharacterTextSplitter
from the langchain library, whose code is not part of this repository.
The splitter is therefore modelled from the spec. -/

/-- Modelled from the spec: the splitText call of Indexer.chunkDocument
is implemented by the external langchain RecursiveCharacterTextSplitter,
absent from src. Following the Chunker contract of the spec (overlapping
fixed-size segments, overlap smaller than chunkSize, hard cut allowed,
exactly one chunk when the text fits in one), the start offsets advance
by chunkSize - chunkOverlap until the remaining text fits in a single
chunk. fuel bounds the recursion and is chosen large enough. -/
def chunkStartsAux (S step L : Nat) : Nat → Nat → List Nat
  | start, 0 => [start]
  | start, fuel + 1 =>
    if start + S < L then start :: chunkStartsAux S step L (start + step) fuel
    else [start]

/-- Modelled from the spec: start offsets of the chunks of a text of
length L with chunkSize S and chunkOverlap O. -/
def chunkStarts (S O L : Nat) : List Nat :=
  chunkStartsAux S (S - O) L 0 L

/-- Modelled from the spec: the chunk texts, each the segment of length
at most S beginning at its start offset. -/
def splitText (S O : Nat) (text : List Char) : List (List Char) :=
  (chunkStarts S O text.length).map fun s => (text.drop s).take S

/-! ## Query route (api/routes/query.ts) -/

/-- AppError of the error-handler middleware: a message and an HTTP
status code. -/
structure AppError where
  message : String
  statusCode : Nat
deriving DecidableEq

/-- The route guard !query or query.trim().length === 0: the query is
missing, empty or whitespace-only, which is exactly when every one of
its characters is whitespace. -/
def isBlankQuery (q : String) : Bool :=
  q.data.all Char.isWhitespace

/-- POST /api/query handler (query.ts lines 13-67): reject a blank
query with a 400; obtain the loaded store via getVectorStore; any error
thrown inside the try block, including the Vector-store-not-loaded
error, is caught and rethrown as AppError(Failed to process query,
500). On success the answer-generation chain runs against the loaded
generation (abstracted to returning that generation id). The handler
never assigns to the fields of the store manager, which the returned
VSMem makes explicit. -/
def queryHandler (mem : VSMem) (query : String) (_topK : Nat) :
    Except AppError Nat × VSMem :=
  if isBlankQuery query then (.error ⟨"Query is required", 400⟩, mem)
  else
    match getVectorStore mem with
    | .error _ => (.error ⟨"Failed to process query", 500⟩, mem)
    | .ok g => (.ok g, mem)

/-! ## Crawler trigger route (api/routes/crawler.ts) -/

/-- State of the crawler route closure: the crawlInProgress flag, plus
the number of live crawler child processes (not a program variable, but
needed to state that at most one build runs at a time). -/
structure CrawlerState where
  crawlInProgress : Bool
  running : Nat
deriving DecidableEq

/-- Initial closure state of createCrawlerRouter (line 214):
crawlInProgress = false, no crawler process running. -/
def initCrawlerState : CrawlerState := ⟨false, 0⟩

/-- POST /api/crawler/trigger (lines 216-260): when crawlInProgress is
set, throw AppError(A crawl is already in progress, 409) without
touching any state; otherwise set the flag, spawn the crawler child
process and answer 202 immediately. -/
def triggerStep (s : CrawlerState) : Except AppError Nat × CrawlerState :=
  if s.crawlInProgress then (.error ⟨"A crawl is already in progress", 409⟩, s)
  else (.ok 202, ⟨true, s.running + 1⟩)

/-- The close handler of the spawned crawler process (lines 244-252):
the process ends and crawlInProgress is reset. Guarded on a process
actually running, since close only ever fires for a spawned process. -/
def finishStep (s : CrawlerState) : CrawlerState :=
  if s.running = 0 then s else ⟨false, s.running - 1⟩

/-- Events that drive the crawler-route state. -/
inductive CrawlEvent where
  | trigger : CrawlEvent
  | finish : CrawlEvent
deriving DecidableEq

/-- One event applied to the crawler-route state. -/
def crawlerEventStep (s : CrawlerState) : CrawlEvent → CrawlerState
  | .trigger => (triggerStep s).2
  | .finish => finishStep s

/-- A sequence of trigger and finish events applied from a state. -/
def runCrawlerEvents (s : CrawlerState) (es : List CrawlEvent) : CrawlerState :=
  es.foldl crawlerEventStep s

/-! ## Index watcher (api/services/index-watcher.ts, src/unnamed/part_000) -/

/-- Registration state of one IndexWatcher: whether the fs.watch
watcher is installed and whether the indexUpdated listener is
subscribed on the vector store manager. -/
structure WatcherState where
  fsWatcherActive : Bool
  listenerActive : Bool
deriving DecidableEq

/-- Watcher state before start() is called: nothing registered. -/
def initWatcherState : WatcherState := ⟨false, false⟩

/-- IndexWatcher.start() (lines 21-56): when the index path does not
exist, log a warning and return before installing the fs.watch watcher
and before subscribing to indexUpdated; otherwise install both. -/
def startWatcher (pathExists : Bool) (w : WatcherState) : WatcherState :=
  if pathExists then ⟨true, true⟩ else w

/-- Whether an indexUpdated event emitted on the vector store manager
runs the reload callback in this process: only a subscribed listener
reacts (lines 46-55). -/
def emitTriggersReload (w : WatcherState) : Bool := w.listenerActive

/-- Whether a filesystem event on the index directory runs the reload
callback: only an installed watcher reacts, and only to a change of
stats.json (lines 32-43). -/
def fsChangeTriggersReload (w : WatcherState) (filename event : String) : Bool :=
  w.fsWatcherActive && filename == "stats.json" && event == "change"

/-! ## Concrete states used by the claim witnesses and counterexamples -/

/-- Production directory holding generation 2 with no stats.json. -/
def fsMissingSidecar : Fs := ⟨some (.complete 2 .missing), none, none, false⟩

/-- In-memory state of a store that had loaded generation 1 with stats
before. -/
def memPrior : VSMem := ⟨some 1, some ⟨3, 10, 0, 0⟩⟩

/-- Production directory before the counterexample save: the complete
pre-save generation 0. -/
def fsPre : Fs := ⟨some (.complete 0 .missing), none, none, false⟩

/-- Stats written by the counterexample save. -/
def statsOne : IndexStats := ⟨1, 1, 0, 0⟩

/-- Filesystem state reached right after the production directory was
renamed to the backup path during the counterexample save. -/
def fsBetweenRenames : Fs :=
  ⟨none, some (.complete 0 .missing), some (.complete 1 (.good statsOne)), true⟩

/-- Invariant of the crawler-route state: never more than one live
crawler process, and a live process implies the flag is set. -/
def crawlerInv (s : CrawlerState) : Prop :=
  s.running ≤ 1 ∧ (1 ≤ s.running → s.crawlInProgress = true)

/-! ## Helper lemmas about the lock retry loop -/

/-- If the lock token is held at every attempt in the window, the retry
loop exhausts its fuel and times out. -/
lemma acquireLockAux_allHeld (held : Nat → Bool) :
    ∀ fuel a, (∀ i, a ≤ i → i < a + fuel → held i = true) →
      acquireLockAux held a fuel = .error .lockAcquisitionTimeout := by
  intro fuel
  induction fuel with
  | zero => intro a _; rfl
  | succ n ih =>
      intro a h
      have ha : held a = true := h a le_rfl (by omega)
      simp only [acquireLockAux, tryCreateLock, ha, if_true, if_false,
        Bool.false_eq_true, reduceIte]
      exact ih (a + 1) fun i h1 h2 => h i (by omega) (by omega)

/-- The retry loop succeeds at the first attempt whose token is free,
provided it lies inside the retry window. -/
lemma acquireLockAux_firstFree (held : Nat → Bool) :
    ∀ fuel a i, a ≤ i → i < a + fuel →
      (∀ j, a ≤ j → j < i → held j = true) → held i = false →
      acquireLockAux held a fuel = .ok i := by
  intro fuel
  induction fuel with
  | zero => intro a i h1 h2 _ _; omega
  | succ n ih =>
      intro a i h1 h2 hbefore hfree
      by_cases hai : a = i
      · subst hai
        simp [acquireLockAux, tryCreateLock, hfree]
      · have ha : held a = true := hbefore a le_rfl (by omega)
        simp only [acquireLockAux, tryCreateLock, ha, Bool.false_eq_true, reduceIte]
        exact ih (a + 1) i (by omega) (by omega)
          (fun j hj1 hj2 => hbefore j (by omega) hj2) hfree

/-- With a free token, acquireLock succeeds immediately at attempt 0. -/
lemma acquireLock_free (held : Nat → Bool) (h : held 0 = false) (n : Nat)
    (hn : 0 < n) : acquireLock held n = .ok 0 := by
  unfold acquireLock
  exact acquireLockAux_firstFree held n 0 0 le_rfl (by omega) (by omega) h

/-- With the token held at every attempt of the window, acquireLock
times out. -/
lemma acquireLock_stale (held : Nat → Bool) (n : Nat)
    (h : ∀ i, i < n → held i = true) :
    acquireLock held n = .error .lockAcquisitionTimeout := by
  unfold acquireLock
  exact acquireLockAux_allHeld held n 0 fun i _ h2 => h i (by omega)

/-- The only error the retry loop can produce is the timeout. -/
lemma acquireLockAux_error_eq (held : Nat → Bool) (e : VSError) :
    ∀ fuel a, acquireLockAux held a fuel = .error e →
      e = .lockAcquisitionTimeout := by
  intro fuel
  induction fuel with
  | zero =>
    intro a h
    injection h with h
    exact h.symm
  | succ n ih =>
    intro a h
    unfold acquireLockAux at h
    by_cases hc : (tryCreateLock (held a)).1 = true
    · rw [if_pos hc] at h
      simp at h
    · rw [if_neg hc] at h
      exact ih (a + 1) h

/-- A successful acquireLock over a constant token state means the
token was absent. -/
lemma acquireLock_const_ok (b : Bool) (n i : Nat)
    (h : acquireLock (fun _ => b) n = .ok i) : b = false := by
  cases hb : b
  · rfl
  · rw [hb] at h
    rw [acquireLock_stale (fun _ => true) n (fun _ _ => rfl)] at h
    cases h

/-! ## Claim theorems -/

/-- C2: lock creation is atomic (an existing token makes the attempt
fail and is left in place, never overwritten); with the token present
the loop retries up to maxRetries attempts and then fails with the
lock-acquisition timeout error; the loop succeeds at the first free
attempt inside the window; and a save against a stale lock fails with
the timeout error and leaves the production path, the backup path, the
tmp path and the in-memory fields untouched. -/
theorem acquire_lock_retry_and_stale_save (held : Nat → Bool) (n : Nat)
    (g : Nat) (stats : IndexStats) (failAt : Option Nat) (fs0 : Fs) (mem : VSMem) :
    tryCreateLock true = (false, true) ∧
    ((∀ i, i < n → held i = true) →
      acquireLock held n = .error .lockAcquisitionTimeout) ∧
    (∀ i, i < n → (∀ j, j < i → held j = true) → held i = false →
      acquireLock held n = .ok i) ∧
    (fs0.lock = true →
      (saveRun g stats failAt fs0 mem).1 = .error .lockAcquisitionTimeout ∧
      (saveRun g stats failAt fs0 mem).2.1.prod = fs0.prod ∧
      (saveRun g stats failAt fs0 mem).2.1.backup = fs0.backup ∧
      (saveRun g stats failAt fs0 mem).2.1.temp = fs0.temp ∧
      (saveRun g stats failAt fs0 mem).2.2.1 = mem) := by
  refine ⟨rfl, acquireLock_stale held n, ?_, ?_⟩
  · intro i h1 h2 h3
    exact acquireLockAux_firstFree held n 0 i (by omega) (by omega)
      (fun j _ hj => h2 j hj) h3
  · intro hlock
    have hacq : acquireLock (fun _ => fs0.lock) 30 = .error .lockAcquisitionTimeout := by
      rw [hlock]
      exact acquireLock_stale _ 30 fun i _ => rfl
    have hmk : stepMkdirProd fs0 = fs0 := by simp [stepMkdirProd, hlock]
    simp [saveRun, hacq, stepReleaseLock, hmk]

/-- C2 witness: a token held for the whole window times out after the
retries; a token freed at attempt 2 is acquired there; a save against a
stale lock fails with the timeout error and leaves the filesystem slots
and memory unchanged. -/
theorem acquire_lock_retry_and_stale_save_witness :
    acquireLock (fun _ => true) 3 = .error .lockAcquisitionTimeout ∧
    acquireLock (fun i => decide (i < 2)) 3 = .ok 2 ∧
    (saveRun 1 ⟨1, 1, 0, 0⟩ none
        ⟨some (.complete 0 .missing), none, none, true⟩ ⟨none, none⟩).1 =
      .error .lockAcquisitionTimeout := by
  refine ⟨?_, ?_, ?_⟩
  · exact (acquire_lock_retry_and_stale_save (fun _ => true) 3 1 ⟨1, 1, 0, 0⟩ none
      ⟨none, none, none, true⟩ ⟨none, none⟩).2.1 (fun i _ => rfl)
  · exact (acquire_lock_retry_and_stale_save (fun i => decide (i < 2)) 3 1
      ⟨1, 1, 0, 0⟩ none ⟨none, none, none, true⟩ ⟨none, none⟩).2.2.1 2
      (by omega) (fun j hj => by simp [hj]) (by decide)
  · exact ((acquire_lock_retry_and_stale_save (fun _ => true) 3 1 ⟨1, 1, 0, 0⟩ none
      ⟨some (.complete 0 .missing), none, none, true⟩ ⟨none, none⟩).2.2.2 rfl).1

/-- C3: evaluation of the code at the failing input, plus the dead-code
fact. On a store whose production path is absent and whose lock token
is absent, load does not fail with the index-not-found error: the
mkdir inside acquireLock creates the production directory first, so
the existsSync guard passes and reading the empty directory fails with
a generic I/O error; indexExists on the same path still returns false.
In fact no execution of load at all can return the index-not-found
error, so the dedicated throw of lines 112-114 is dead code. -/
theorem load_absent_generic_io_error :
    ((load ⟨none, none, none, false⟩ ⟨none, none⟩).result = .error .ioError ∧
      indexExists ⟨none, none, none, false⟩ = false) ∧
    ∀ (fs : Fs) (mem : VSMem),
      (load fs mem).result ≠ .error .indexNotFound := by
  constructor
  · exact ⟨by decide, by decide⟩
  · intro fs mem hcontra
    cases hacq : acquireLock (fun _ => fs.lock) 30 with
    | error e =>
      have he : e = .lockAcquisitionTimeout :=
        acquireLockAux_error_eq (fun _ => fs.lock) e 30 0 hacq
      rw [he] at hacq
      simp [load, hacq] at hcontra
    | ok k =>
      have hlf : fs.lock = false := acquireLock_const_ok fs.lock 30 k hacq
      have hprod : (stepMkdirProd fs).prod ≠ none := by
        unfold stepMkdirProd
        split
        · rename_i hcond
          intro hn
          rw [hn, hlf] at hcond
          simp at hcond
        · simp
      cases hm : (stepMkdirProd fs).prod with
      | none => exact hprod hm
      | some d => cases d <;> simp [load, hacq, hm] at hcontra

/-- C3 witness: the dead-code fact applied at the concrete failing
input. -/
theorem load_absent_generic_io_error_witness :
    (load ⟨none, none, none, false⟩ ⟨none, none⟩).result ≠
      .error .indexNotFound :=
  load_absent_generic_io_error.2 ⟨none, none, none, false⟩ ⟨none, none⟩

/-- C5: whenever load or save ends in an error, whatever the cause and
wherever it struck, the execution still performed a releaseLock action
before propagating the error. -/
theorem error_paths_release_lock (fs : Fs) (mem : VSMem) (g : Nat)
    (stats : IndexStats) (failAt : Option Nat) :
    (exceptOk (load fs mem).result = false →
      .releaseLock ∈ (load fs mem).trace) ∧
    (exceptOk (saveRun g stats failAt fs mem).1 = false →
      .releaseLock ∈ (saveRun g stats failAt fs mem).2.2.2) := by
  constructor
  · intro herr
    cases hacq : acquireLock (fun _ => fs.lock) 30 with
    | error e => simp [load, hacq]
    | ok k =>
      cases hp : (stepMkdirProd fs).prod with
      | none => simp [load, hacq, hp]
      | some d =>
        cases d with
        | complete g' sc => simp [load, hacq, hp]
        | incomplete g' hd => simp [load, hacq, hp]
        | empty => simp [load, hacq, hp]
  · intro herr
    cases hacq : acquireLock (fun _ => fs.lock) 30 with
    | error e => simp [saveRun, hacq]
    | ok k =>
      rcases hr : runSteps (saveActs g stats) failAt
        (stepAcquireLock (stepMkdirProd fs)) [.acquireLock] with ⟨b, fs2, tr⟩
      cases b with
      | true => simp [saveRun, hacq, hr, exceptOk] at herr
      | false => simp [saveRun, hacq, hr]

/-- C5 witness: a load hitting index-not-found and a save whose first
tmp write throws both record a releaseLock action. -/
theorem error_paths_release_lock_witness :
    .releaseLock ∈ (load ⟨none, none, none, false⟩ ⟨none, none⟩).trace ∧
    .releaseLock ∈ (saveRun 1 ⟨1, 1, 0, 0⟩ (some 0)
      ⟨none, none, none, false⟩ ⟨none, none⟩).2.2.2 := by
  refine ⟨?_, ?_⟩
  · exact (error_paths_release_lock ⟨none, none, none, false⟩ ⟨none, none⟩ 1
      ⟨1, 1, 0, 0⟩ (some 0)).1 (by decide)
  · exact (error_paths_release_lock ⟨none, none, none, false⟩ ⟨none, none⟩ 1
      ⟨1, 1, 0, 0⟩ (some 0)).2 (by decide)

/-- C4 amended: when the production generation is readable, load
succeeds whatever the state of the stats sidecar; a corrupt sidecar
degrades the in-memory stats to null; a missing sidecar leaves the
previous in-memory stats value in place (null on a freshly constructed
store); a good sidecar installs its stats. -/
theorem load_sidecar_tolerant (fs : Fs) (mem : VSMem) (g : Nat)
    (hl : fs.lock = false) :
    (fs.prod = some (.complete g .corrupt) →
      (load fs mem).result = .ok g ∧ (load fs mem).mem.stats = none) ∧
    (fs.prod = some (.complete g .missing) →
      (load fs mem).result = .ok g ∧ (load fs mem).mem.stats = mem.stats) ∧
    (∀ s, fs.prod = some (.complete g (.good s)) →
      (load fs mem).result = .ok g ∧ (load fs mem).mem.stats = some s) := by
  have hacq : acquireLock (fun _ => fs.lock) 30 = .ok 0 := by
    rw [hl]; exact acquireLock_free _ rfl 30 (by omega)
  refine ⟨fun hp => ?_, fun hp => ?_, fun s hp => ?_⟩ <;>
    simp [load, hacq, hp, loadStats, stepMkdirProd]

/-- C4 counterexample: a load over a readable generation whose sidecar
is missing succeeds but does not fall back to null stats: the stats of
the previously loaded generation survive. -/
theorem load_missing_sidecar_keeps_old_stats :
    (load fsMissingSidecar memPrior).result = .ok 2 ∧
    ¬ (load fsMissingSidecar memPrior).mem.stats = none := by decide

/-- C4 witness: applying the tolerance theorem at a corrupt sidecar, a
missing sidecar and a good sidecar. -/
theorem load_sidecar_tolerant_witness :
    ((load ⟨some (.complete 2 .corrupt), none, none, false⟩ memPrior).result = .ok 2 ∧
      (load ⟨some (.complete 2 .corrupt), none, none, false⟩ memPrior).mem.stats = none) ∧
    ((load fsMissingSidecar memPrior).result = .ok 2 ∧
      (load fsMissingSidecar memPrior).mem.stats = memPrior.stats) := by
  refine ⟨?_, ?_⟩
  · exact (load_sidecar_tolerant ⟨some (.complete 2 .corrupt), none, none, false⟩
      memPrior 2 rfl).1 rfl
  · exact (load_sidecar_tolerant fsMissingSidecar memPrior 2 rfl).2.1 rfl

/-- The backup removal does not touch the production or tmp slots. -/
lemma stepRmBackup_prod (fs : Fs) : (stepRmBackup fs).prod = fs.prod := by
  unfold stepRmBackup; split <;> rfl

/-- The backup removal leaves the tmp slot unchanged. -/
lemma stepRmBackup_temp (fs : Fs) : (stepRmBackup fs).temp = fs.temp := by
  unfold stepRmBackup; split <;> rfl

/-- Moving the production directory to the backup slot leaves the
production slot either empty or untouched. -/
lemma stepRenameProdToBackup_prod (fs : Fs) :
    (stepRenameProdToBackup fs).prod = none ∨
    (stepRenameProdToBackup fs).prod = fs.prod := by
  unfold stepRenameProdToBackup; split
  · exact Or.inl rfl
  · exact Or.inr rfl

/-- Moving the production directory to the backup slot leaves the tmp
slot unchanged. -/
lemma stepRenameProdToBackup_temp (fs : Fs) :
    (stepRenameProdToBackup fs).temp = fs.temp := by
  unfold stepRenameProdToBackup; split <;> rfl

/-- The mkdir inside acquireLock leaves the production slot unchanged
or creates it as an empty directory. -/
lemma stepMkdirProd_prod (fs : Fs) :
    (stepMkdirProd fs).prod = fs.prod ∨
    (stepMkdirProd fs).prod = some .empty := by
  unfold stepMkdirProd; split
  · exact Or.inl rfl
  · exact Or.inr rfl

/-- C1 amended: at every instant of a failure-free save, the production
path holds the complete pre-save content, the complete new generation
with its sidecar, nothing at all (during the window between the two
renames), or a freshly created empty directory (when no generation
existed before the save, the mkdir inside acquireLock creates the
production path empty); it never holds a partially written or mixed
generation. -/
theorem save_prod_never_torn (g : Nat) (stats : IndexStats) (fs0 : Fs) :
    ∀ s ∈ saveStates g stats fs0,
      s.prod = fs0.prod ∨ s.prod = some (.complete g (.good stats)) ∨
        s.prod = none ∨ s.prod = some .empty := by
  intro s hs
  have hm := stepMkdirProd_prod fs0
  simp only [saveStates, saveActs, List.map, List.cons_append, List.nil_append,
    List.scanl, List.mem_cons, List.not_mem_nil, or_false] at hs
  rcases hs with h | h | h | h | h | h | h | h | h | h <;> subst h
  · exact Or.inl rfl
  · rcases hm with h' | h'
    · exact Or.inl h'
    · exact Or.inr (Or.inr (Or.inr h'))
  · rcases hm with h' | h'
    · exact Or.inl h'
    · exact Or.inr (Or.inr (Or.inr h'))
  · rcases hm with h' | h'
    · exact Or.inl h'
    · exact Or.inr (Or.inr (Or.inr h'))
  · rcases hm with h' | h'
    · exact Or.inl h'
    · exact Or.inr (Or.inr (Or.inr h'))
  · rcases hm with h' | h'
    · exact Or.inl h'
    · exact Or.inr (Or.inr (Or.inr h'))
  · rw [stepRmBackup_prod]
    rcases hm with h' | h'
    · exact Or.inl h'
    · exact Or.inr (Or.inr (Or.inr h'))
  · rcases stepRenameProdToBackup_prod (stepRmBackup
      (stepWriteStats g stats (stepWriteDocstore g (stepWriteIndex g
        (stepAcquireLock (stepMkdirProd fs0)))))) with h' | h'
    · exact Or.inr (Or.inr (Or.inl h'))
    · rw [h', stepRmBackup_prod]
      rcases hm with h'' | h''
      · exact Or.inl h''
      · exact Or.inr (Or.inr (Or.inr h''))
  · refine Or.inr (Or.inl ?_)
    show (stepRenameProdToBackup _).temp = _
    rw [stepRenameProdToBackup_temp, stepRmBackup_temp]
    rfl
  · refine Or.inr (Or.inl ?_)
    show (stepRenameProdToBackup _).temp = _
    rw [stepRenameProdToBackup_temp, stepRmBackup_temp]
    rfl

/-- C1 counterexample: during a save of generation 1 over generation 0,
the trace of filesystem states contains an instant at which the
production path holds neither the complete pre-save generation nor the
complete post-save generation: it is absent between the rename of the
production directory to the backup path and the rename of the tmp
directory into the production path. -/
theorem save_prod_absent_between_renames :
    ∃ s ∈ saveStates 1 statsOne fsPre,
      s.prod ≠ some (.complete 0 .missing) ∧
      s.prod ≠ some (.complete 1 (.good statsOne)) := by decide

/-- C1 witness: the trichotomy applied to the state between the two
renames of the counterexample save. -/
theorem save_prod_never_torn_witness :
    fsBetweenRenames.prod = fsPre.prod ∨
    fsBetweenRenames.prod = some (.complete 1 (.good statsOne)) ∨
    fsBetweenRenames.prod = none ∨ fsBetweenRenames.prod = some .empty :=
  save_prod_never_torn 1 statsOne fsPre fsBetweenRenames (by decide)

/-- Structural description of one crawler loop run: the processed list
retains exactly the successful documents in order, the error count
matches the failing documents, and the counters add up. -/
lemma processLoop_spec {α β ε : Type} (proc : α → Except ε β) :
    ∀ docs : List α,
      (processLoop proc docs).processed =
        docs.filterMap (fun d => (proc d).toOption) ∧
      (processLoop proc docs).errors.length =
        (docs.filter fun d => !(exceptOk (proc d))).length ∧
      (processLoop proc docs).documentsProcessed +
        (processLoop proc docs).errors.length = docs.length ∧
      (processLoop proc docs).documentsSkipped =
        (processLoop proc docs).errors.length := by
  intro docs
  induction docs with
  | nil => simp [processLoop]
  | cons d rest ih =>
    obtain ⟨ih1, ih2, ih3, ih4⟩ := ih
    cases hp : proc d with
    | ok pd =>
      refine ⟨?_, ?_, ?_, ?_⟩
      · simp only [processLoop, hp]
        simp [Except.toOption, List.filterMap_cons, hp, ih1]
      · simp only [processLoop, hp]
        simp [exceptOk, List.filter_cons, hp, ih2]
      · simp only [processLoop, hp, List.length_cons]
        omega
      · simp only [processLoop, hp]
        exact ih4
    | error e =>
      refine ⟨?_, ?_, ?_, ?_⟩
      · simp only [processLoop, hp]
        simp [Except.toOption, List.filterMap_cons, hp, ih1]
      · simp only [processLoop, hp, List.length_cons]
        simp [exceptOk, List.filter_cons, hp, ih2]
      · simp only [processLoop, hp, List.length_cons]
        omega
      · simp only [processLoop, hp, List.length_cons]
        omega

/-- C7: for a batch of N documents of which exactly K fail processing,
the loop keeps going past every failure, the resulting generation holds
the chunks of exactly the N - K successfully processed documents in
order, exactly K errors are recorded, and the reported totalDocuments
equals N - K. -/
theorem crawl_partial_failure {α β γ ε : Type} (docs : List α)
    (proc : α → Except ε β) (ch : β → List γ) :
    (processLoop proc docs).processed =
      docs.filterMap (fun d => (proc d).toOption) ∧
    (processLoop proc docs).errors.length =
      (docs.filter fun d => !(exceptOk (proc d))).length ∧
    (processLoop proc docs).documentsProcessed =
      docs.length - (docs.filter fun d => !(exceptOk (proc d))).length ∧
    createIndex ch (processLoop proc docs).processed =
      ((docs.filterMap fun d => (proc d).toOption).map ch).flatten ∧
    (crawlStats ch (processLoop proc docs)).totalDocuments =
      docs.length - (docs.filter fun d => !(exceptOk (proc d))).length := by
  obtain ⟨h1, h2, h3, _⟩ := processLoop_spec proc docs
  refine ⟨h1, h2, by omega, ?_, ?_⟩
  · rw [createIndex, h1]
  · show (processLoop proc docs).documentsProcessed = _
    omega

/-- C7 witness: a batch of three documents of which the middle one
fails yields two processed documents, one recorded error and
totalDocuments two. -/
theorem crawl_partial_failure_witness :
    (processLoop (fun n : Nat => if n = 1 then Except.error "fail" else .ok n)
        [0, 1, 2]).documentsProcessed =
      ([0, 1, 2] : List Nat).length -
        (([0, 1, 2] : List Nat).filter fun d =>
          !(exceptOk (if d = 1 then Except.error "fail" else .ok d))).length :=
  (crawl_partial_failure [0, 1, 2]
    (fun n : Nat => if n = 1 then Except.error "fail" else .ok n)
    (fun n => [n, n])).2.2.1

/-- C8 counterexample: with no generation loaded, the query route does
not hand the caller the typed vector-store-not-loaded error: it catches
it and answers with the generic 500 AppError instead. -/
theorem query_route_masks_typed_error :
    (queryHandler ⟨none, none⟩ "hello" 4).1 =
      .error ⟨"Failed to process query", 500⟩ ∧
    ("Failed to process query" : String) ≠ "Vector store not loaded" := by
  constructor
  · have hb : isBlankQuery "hello" = false := by decide
    simp [queryHandler, hb, getVectorStore]
  · decide

/-- C8 amended: with no generation loaded, the core getVectorStore
fails with the typed vector-store-not-loaded error; the HTTP route
surfaces any such failure as the generic 500 failed-to-process-query
AppError; and the failed query leaves the loaded state and stats
exactly as they were. -/
theorem query_no_index_typed_core (mem : VSMem) (q : String) (k : Nat)
    (h : mem.vectorStore = none) :
    getVectorStore mem = .error .vectorStoreNotLoaded ∧
    (isBlankQuery q = false →
      (queryHandler mem q k).1 = .error ⟨"Failed to process query", 500⟩) ∧
    (queryHandler mem q k).2 = mem := by
  refine ⟨by simp [getVectorStore, h], fun hq => ?_, ?_⟩
  · simp [queryHandler, hq, getVectorStore, h]
  · unfold queryHandler
    split
    · rfl
    · simp [getVectorStore, h]

/-- C8 witness: the amended behavior at a store with nothing loaded and
the query hello. -/
theorem query_no_index_typed_core_witness :
    getVectorStore ⟨none, none⟩ = .error .vectorStoreNotLoaded ∧
    (queryHandler ⟨none, none⟩ "hello" 4).1 =
      .error ⟨"Failed to process query", 500⟩ ∧
    (queryHandler ⟨none, none⟩ "hello" 4).2 = ⟨none, none⟩ := by
  have h := query_no_index_typed_core ⟨none, none⟩ "hello" 4 rfl
  exact ⟨h.1, h.2.1 (by decide), h.2.2⟩

/-- Each trigger or finish event preserves the crawler invariant. -/
lemma crawlerEventStep_inv (s : CrawlerState) (h : crawlerInv s)
    (e : CrawlEvent) : crawlerInv (crawlerEventStep s e) := by
  obtain ⟨h1, h2⟩ := h
  cases e with
  | trigger =>
    show crawlerInv (triggerStep s).2
    unfold triggerStep
    by_cases hc : s.crawlInProgress = true
    · rw [if_pos hc]
      exact ⟨h1, h2⟩
    · have h0 : s.running = 0 := by
        rcases Nat.eq_zero_or_pos s.running with h' | h'
        · exact h'
        · exact absurd (h2 h') hc
      rw [if_neg hc]
      refine ⟨?_, fun _ => rfl⟩
      show s.running + 1 ≤ 1
      omega
  | finish =>
    show crawlerInv (finishStep s)
    unfold finishStep
    by_cases hc : s.running = 0
    · rw [if_pos hc]
      exact ⟨h1, h2⟩
    · rw [if_neg hc]
      refine ⟨?_, fun hge => ?_⟩
      · show s.running - 1 ≤ 1
        omega
      · have hge' : 1 ≤ s.running - 1 := hge
        exfalso
        omega

/-- The crawler invariant holds along every event sequence from a state
satisfying it. -/
lemma runCrawlerEvents_inv :
    ∀ (es : List CrawlEvent) (s : CrawlerState), crawlerInv s →
      crawlerInv (runCrawlerEvents s es) := by
  intro es
  induction es with
  | nil => intro s h; exact h
  | cons e rest ih =>
    intro s h
    exact ih (crawlerEventStep s e) (crawlerEventStep_inv s h e)

/-- C9: a trigger arriving while the in-process crawlInProgress flag is
set fails immediately with the 409 already-in-progress AppError and
changes nothing (no spawn, no state change); and along every sequence
of trigger and finish events from the initial route state at most one
crawler process is ever running. -/
theorem trigger_fail_fast_single_build :
    (∀ s : CrawlerState, s.crawlInProgress = true →
      triggerStep s = (.error ⟨"A crawl is already in progress", 409⟩, s)) ∧
    (∀ es : List CrawlEvent, (runCrawlerEvents initCrawlerState es).running ≤ 1) := by
  constructor
  · intro s hs; simp [triggerStep, hs]
  · intro es
    have hinv : crawlerInv initCrawlerState := by
      refine ⟨by simp [initCrawlerState], ?_⟩
      intro h
      simp [initCrawlerState] at h
    exact (runCrawlerEvents_inv es initCrawlerState hinv).1

/-- C9 witness: a trigger against a busy state answers the 409 error
without touching the state, and a concrete event sequence with a
re-trigger never has two crawler processes running. -/
theorem trigger_fail_fast_single_build_witness :
    triggerStep ⟨true, 1⟩ = (.error ⟨"A crawl is already in progress", 409⟩, ⟨true, 1⟩) ∧
    (runCrawlerEvents initCrawlerState
      [.trigger, .trigger, .finish, .trigger]).running ≤ 1 := by
  exact ⟨trigger_fail_fast_single_build.1 ⟨true, 1⟩ rfl,
    trigger_fail_fast_single_build.2 [.trigger, .trigger, .finish, .trigger]⟩

/-- C10: when the index path does not exist, start() returns before
registering the filesystem watcher or the indexUpdated subscription, so
the watcher state is unchanged; from the initial state, neither an
emitted indexUpdated event nor any filesystem event then triggers the
reload callback, even though a later successful save does emit
indexUpdated. -/
theorem watcher_skip_registers_nothing :
    (∀ w : WatcherState, startWatcher false w = w) ∧
    emitTriggersReload (startWatcher false initWatcherState) = false ∧
    (∀ f e : String,
      fsChangeTriggersReload (startWatcher false initWatcherState) f e = false) ∧
    (∀ (g : Nat) (stats : IndexStats) (fs0 : Fs) (mem : VSMem), fs0.lock = false →
      exceptOk (saveRun g stats none fs0 mem).1 = true ∧
      .emitIndexUpdated ∈ (saveRun g stats none fs0 mem).2.2.2) := by
  refine ⟨fun w => rfl, rfl, fun f e => rfl, ?_⟩
  intro g stats fs0 mem hl
  have hacq : acquireLock (fun _ => fs0.lock) 30 = .ok 0 := by
    rw [hl]; exact acquireLock_free _ rfl 30 (by omega)
  constructor <;> simp [saveRun, hacq, saveActs, runSteps, exceptOk]

/-- C10 witness: a successful save from an unlocked filesystem emits
indexUpdated, yet the watcher left unstarted reports no reload trigger
for that event. -/
theorem watcher_skip_registers_nothing_witness :
    emitTriggersReload (startWatcher false initWatcherState) = false ∧
    .emitIndexUpdated ∈ (saveRun 1 statsOne none
      ⟨none, none, none, false⟩ ⟨none, none⟩).2.2.2 := by
  exact ⟨watcher_skip_registers_nothing.2.1,
    (watcher_skip_registers_nothing.2.2.2 1 statsOne
      ⟨none, none, none, false⟩ ⟨none, none⟩ rfl).2⟩

/-- Number of chunk start offsets produced by the splitter loop, as a
function of the remaining length, provided the fuel covers the text. -/
lemma chunkStartsAux_length (S step L : Nat) (hstep : 1 ≤ step) :
    ∀ fuel start, L ≤ start + S + fuel →
      (chunkStartsAux S step L start fuel).length =
        if L ≤ start + S then 1 else (L - S - start + step - 1) / step + 1 := by
  intro fuel
  induction fuel with
  | zero =>
    intro start h
    have hle : L ≤ start + S := by omega
    simp [chunkStartsAux, hle]
  | succ n ih =>
    intro start h
    by_cases hc : start + S < L
    · have hnot : ¬ L ≤ start + S := by omega
      simp only [chunkStartsAux, if_pos hc, List.length_cons]
      rw [ih (start + step) (by omega), if_neg hnot]
      by_cases hA : L ≤ start + step + S
      · rw [if_pos hA]
        have hdiv : (L - S - start + step - 1) / step = 1 :=
          Nat.div_eq_of_lt_le (by omega) (by omega)
        omega
      · rw [if_neg hA]
        have hnum : L - S - start + step - 1 =
            (L - S - (start + step) + step - 1) + step := by omega
        rw [hnum, Nat.add_div_right _ (by omega)]
    · have hle : L ≤ start + S := by omega
      simp [chunkStartsAux, hc, hle]

/-- Every position of the text from the current start onwards is
covered by some chunk interval produced by the splitter loop. -/
lemma chunkStartsAux_cover (S step L : Nat) (hstep : 1 ≤ step)
    (hSstep : step ≤ S) :
    ∀ fuel start, L ≤ start + S + fuel →
      ∀ p, start ≤ p → p < L →
        ∃ s ∈ chunkStartsAux S step L start fuel, s ≤ p ∧ p < s + S := by
  intro fuel
  induction fuel with
  | zero =>
    intro start h p hp1 hp2
    exact ⟨start, by simp [chunkStartsAux], hp1, by omega⟩
  | succ n ih =>
    intro start h p hp1 hp2
    by_cases hc : start + S < L
    · by_cases hp : p < start + S
      · exact ⟨start, by simp [chunkStartsAux, hc], hp1, hp⟩
      · obtain ⟨s, hs, h1, h2⟩ := ih (start + step) (by omega) p (by omega) hp2
        refine ⟨s, ?_, h1, h2⟩
        simp only [chunkStartsAux, if_pos hc]
        exact List.mem_cons_of_mem _ hs
    · exact ⟨start, by simp [chunkStartsAux, hc], hp1, by omega⟩

/-- C6: for a nonempty document of length L chunked with chunkSize S
and chunkOverlap O (O < S), the produced chunks cover the whole
document with no gaps (every position lies inside some chunk interval),
and the number of chunks is 1 when L is at most S and otherwise the
ceiling of (L - O) / (S - O). -/
theorem chunk_coverage_and_count (text : List Char) (S O : Nat)
    (hO : O < S) (_hL : 0 < text.length) :
    ((splitText S O text).length =
      if text.length ≤ S then 1
      else (text.length - O + (S - O) - 1) / (S - O)) ∧
    ∀ p, p < text.length →
      ∃ s ∈ chunkStarts S O text.length, s ≤ p ∧ p < s + S := by
  have hstep : 1 ≤ S - O := by omega
  constructor
  · have hmap : (splitText S O text).length =
        (chunkStarts S O text.length).length := by
      simp [splitText]
    rw [hmap]
    unfold chunkStarts
    rw [chunkStartsAux_length S (S - O) text.length hstep text.length 0 (by omega)]
    by_cases hc : text.length ≤ S
    · rw [if_pos (by omega : text.length ≤ 0 + S), if_pos hc]
    · rw [if_neg (by omega : ¬ text.length ≤ 0 + S), if_neg hc]
      have hnum : text.length - O + (S - O) - 1 =
          (text.length - S - 0 + (S - O) - 1) + (S - O) := by omega
      rw [hnum, Nat.add_div_right _ (by omega)]
  · intro p hp
    exact chunkStartsAux_cover S (S - O) text.length hstep (by omega)
      text.length 0 (by omega) p (by omega) hp

/-- C6 witness: a ten-character document with chunkSize 8 and overlap 2
satisfies the count formula and the coverage property. -/
theorem chunk_coverage_and_count_witness :
    ((splitText 8 2 (List.replicate 10 'a')).length =
      if (List.replicate 10 'a').length ≤ 8 then 1
      else ((List.replicate 10 'a').length - 2 + (8 - 2) - 1) / (8 - 2)) ∧
    ∀ p, p < (List.replicate 10 'a').length →
      ∃ s ∈ chunkStarts 8 2 (List.replicate 10 'a').length,
        s ≤ p ∧ p < s + 8 :=
  chunk_coverage_and_count (List.replicate 10 'a') 8 2 (by omega) (by simp)

end SpoRag
